import Mathlib

/-!
Verification of the Elasticsearch time-series query builder
(`pkg/tsdb/elasticsearch/time_series_query.go`).

The builder translates a per-panel query model (Query / BucketAgg /
MetricAgg) into a nested aggregation request.  Pure Go functions are
embedded as Lean functions; the in-place mutation of settings objects is
represented by explicitly returned post-states.  The dynamic
`simplejson.Json` documents are modelled by the inductive `JValue` type.
-/

namespace ESQuery

/-- Modelled from the spec: the dynamic JSON-like documents handled by the
`simplejson` component (not among the provided sources).  A Go `float64`
value is represented by its truncation toward zero, which is the only
observation the query builder ever makes of a float (`Int()` conversion);
no code path reads a float back as a string or re-serialises it. -/
inductive JValue where
  | null
  | jbool (b : Bool)
  | jstr (s : String)
  | jint (n : Int)
  | jfloat (trunc : Int)
  | jarr (elems : List JValue)
  | jobj (fields : List (String × JValue))

/-- First binding of a key in an association list (Go map lookup). -/
def assocFind {α : Type} : List (String × α) → String → Option α
  | [], _ => none
  | (k', v) :: rest, k => if k' = k then some v else assocFind rest k

/-- Update the first binding of a key, or append it (Go map store). -/
def assocSet {α : Type} : List (String × α) → String → α → List (String × α)
  | [], k, v => [(k, v)]
  | (k', v') :: rest, k, v =>
      if k' = k then (k, v) :: rest else (k', v') :: assocSet rest k v

/-- Modelled from the spec: `simplejson.Json.Get` — child by key, the null
document when absent or when the receiver is not an object. -/
def jGet : JValue → String → JValue
  | .jobj fields, k => (assocFind fields k).getD .null
  | _, _ => .null

/-- Modelled from the spec: `simplejson.Json.GetPath`. -/
def jGetPath (s : JValue) : List String → JValue
  | [] => s
  | k :: ks => jGetPath (jGet s k) ks

/-- Modelled from the spec: `simplejson.Json.SetPath` — walks the path,
replacing any non-object intermediate with a fresh object, and stores the
value at the leaf. -/
def jSetPath : JValue → List String → JValue → JValue
  | _, [], v => v
  | s, k :: ks, v =>
      let fields := match s with | .jobj f => f | _ => []
      let sub := (assocFind fields k).getD .null
      .jobj (assocSet fields k (jSetPath sub ks v))

/-- Modelled from the spec: `Json.String()` — succeeds exactly on strings. -/
def jString : JValue → Option String
  | .jstr s => some s
  | _ => none

/-- Modelled from the spec: `Json.Int()` — succeeds on numeric values
(floats are truncated toward zero), fails otherwise. -/
def jInt : JValue → Option Int
  | .jint n => some n
  | .jfloat t => some t
  | _ => none

/-- Modelled from the spec: `Json.MustString(default)`. -/
def jMustString (v : JValue) (d : String) : String := (jString v).getD d

/-- Modelled from the spec: `Json.MustInt(default)`. -/
def jMustInt (v : JValue) (d : Int) : Int := (jInt v).getD d

/-- Modelled from the spec: `Json.MustArray()` — the elements if the value
is an array, empty otherwise. -/
def jMustArray : JValue → List JValue
  | .jarr l => l
  | _ => []

/-- Modelled from the spec: `Json.MustMap()` re-wrapped through
`simplejson.NewFromAny` — the object itself, or the empty object when the
value is not an object. -/
def mustMapJ : JValue → JValue
  | .jobj f => .jobj f
  | _ => .jobj []

/-- Whether a value is a JSON object. -/
def JValue.isObj : JValue → Bool
  | .jobj _ => true
  | _ => false

/-- Numeric value of a (already validated) digit list, most significant
first. -/
def digitsVal (ds : List Char) : Nat :=
  ds.foldl (fun n c => n * 10 + (c.toNat - 48)) 0

/-- Modelled from the spec: Go `strconv.Atoi` / `strconv.ParseInt(s,10,64)`
(standard library, outside the repository): optional sign followed by one
or more decimal digits, within the signed 64-bit range. -/
def goParseInt (s : String) : Option Int :=
  let core : List Char → Option Int := fun l =>
    if !l.isEmpty && l.all Char.isDigit then some (digitsVal l) else none
  let signed : Option Int :=
    match s.toList with
    | [] => none
    | '+' :: rest => core rest
    | '-' :: rest => (core rest).map (fun n => -n)
    | l => core l
  match signed with
  | some n => if -(2 ^ 63) ≤ n ∧ n ≤ 2 ^ 63 - 1 then some n else none
  | none => none

/-- Modelled from the spec: Go `strconv.ParseFloat(s,64)` (standard
library, outside the repository), restricted to plain decimal forms —
optional sign, integer digits, optional fraction part; exponent, hex and
inf/NaN spellings are omitted, as no claim depends on them.  The result is
the parsed value truncated toward zero, the only observation the builder
makes of floats. -/
def goParseFloat (s : String) : Option Int :=
  let mag : List Char → Option Nat := fun l =>
    let ip := l.takeWhile Char.isDigit
    let rest := l.dropWhile Char.isDigit
    match rest with
    | [] => if !ip.isEmpty then some (digitsVal ip) else none
    | '.' :: fp =>
        if (!ip.isEmpty || !fp.isEmpty) && fp.all Char.isDigit then
          some (digitsVal ip)
        else none
    | _ => none
  match s.toList with
  | [] => none
  | '+' :: rest => (mag rest).map Int.ofNat
  | '-' :: rest => (mag rest).map (fun n => -(n : Int))
  | l => (mag l).map Int.ofNat

/-- Modelled from the spec: `BucketAgg` of the query model (`models.go` is
not among the provided sources; fields per spec §3 and their uses in
`time_series_query.go`). -/
structure BucketAgg where
  id : String
  type : String
  field : String
  settings : JValue

/-- Modelled from the spec: `MetricAgg` of the query model. -/
structure MetricAgg where
  id : String
  type : String
  field : String
  settings : JValue
  pipelineAggregate : String
  pipelineVariables : List (String × String)

/-- Modelled from the spec: `Query`, one panel's request. -/
structure Query where
  refId : String
  rawQuery : String
  interval : String
  maxDataPoints : Int
  bucketAggs : List BucketAgg
  metrics : List MetricAgg

/-- Modelled from the spec: the `countType` constant of the query model. -/
def countType : String := "count"

/-- Modelled from the spec: the `dateHistType` constant. -/
def dateHistType : String := "date_histogram"

/-- Modelled from the spec: the `histogramType` constant. -/
def histogramType : String := "histogram"

/-- Modelled from the spec: the `filtersType` constant. -/
def filtersType : String := "filters"

/-- Modelled from the spec: the `termsType` constant. -/
def termsType : String := "terms"

/-- Modelled from the spec: the `geohashGridType` constant. -/
def geohashGridType : String := "geohash_grid"

/-- Modelled from the spec: `es.DateFormatEpochMS` of the client package. -/
def dateFormatEpochMS : String := "epoch_millis"

/-- Modelled from the spec: the set of pipeline aggregation types
(`isPipelineAgg` of the query model; spec §3 names moving-average,
serial-diff, derivative and multi-input pipelines).  Which claims hold
never depends on the exact membership — every theorem takes the predicate
as a hypothesis. -/
def pipelineAggTypes : List String :=
  ["moving_avg", "moving_fn", "derivative", "serial_diff",
   "cumulative_sum", "bucket_script"]

/-- Modelled from the spec: `isPipelineAgg`. -/
def isPipelineAgg (t : String) : Bool := pipelineAggTypes.contains t

/-- Modelled from the spec: `isPipelineAggWithMultipleBucketPaths` — the
multi-input pipeline form (bucket script). -/
def isPipelineAggWithMultipleBucketPaths (t : String) : Bool :=
  t = "bucket_script"

/-- Modelled from the spec: `isMetricAggregationWithInlineScriptSupport` —
the metric types that carry an inline script (spec §4.4).  No claim
depends on the exact membership; the idempotence theorem holds for every
type. -/
def scriptableAggTypes : List String :=
  ["avg", "max", "min", "sum", "stats", "extended_stats",
   "percentiles", "bucket_script"]

/-- Modelled from the spec: `isMetricAggregationWithInlineScriptSupport`. -/
def isMetricAggregationWithInlineScriptSupport (t : String) : Bool :=
  scriptableAggTypes.contains t

/-- `setFloatPath` (time_series_query.go): if the settings value at the
path is a string that parses as a float, replace it with that float. -/
def setFloatPath (settings : JValue) (path : List String) : JValue :=
  match jString (jGetPath settings path) with
  | some stringValue =>
      match goParseFloat stringValue with
      | some value => jSetPath settings path (.jfloat value)
      | none => settings
  | none => settings

/-- `setIntPath` (time_series_query.go): if the settings value at the path
is a string that parses as a 64-bit integer, replace it with that
integer. -/
def setIntPath (settings : JValue) (path : List String) : JValue :=
  match jString (jGetPath settings path) with
  | some stringValue =>
      match goParseInt stringValue with
      | some value => jSetPath settings path (.jint value)
      | none => settings
  | none => settings

/-- Sequence of `setFloatPath` calls, one per path, in order. -/
def setFloatPaths (s : JValue) (ps : List (List String)) : JValue :=
  ps.foldl setFloatPath s

/-- The settings paths coerced to float for a `moving_avg` metric
(time_series_query.go, `generateSettingsForDSL`). -/
def movingAvgPaths : List (List String) :=
  [["window"], ["predict"], ["settings", "alpha"], ["settings", "beta"],
   ["settings", "gamma"], ["settings", "period"]]

/-- The inline-script promotion step of `MetricAgg.generateSettingsForDSL`
(time_series_query.go): prefer a top-level `script` string; otherwise
promote a legacy nested `script.inline` string to the flat key. -/
def promoteScript (s : JValue) : JValue :=
  match jString (jGetPath s ["script"]) with
  | some scriptValue => jSetPath s ["script"] (.jstr scriptValue)
  | none =>
      match jString (jGetPath s ["script", "inline"]) with
      | some scriptValue => jSetPath s ["script"] (.jstr scriptValue)
      | none => s

/-- The per-type float-coercion switch of `MetricAgg.generateSettingsForDSL`
(time_series_query.go lines 225-235). -/
def floatCoercions (ty : String) (s : JValue) : JValue :=
  if ty = "moving_avg" then setFloatPaths s movingAvgPaths
  else if ty = "serial_diff" then setFloatPaths s [["lag"]]
  else s

/-- The mutation performed by `MetricAgg.generateSettingsForDSL` on a
settings object of a metric of the given type: per-type float coercions,
then the inline-script promotion for script-capable types. -/
def mutateSettings (ty : String) (s : JValue) : JValue :=
  if isMetricAggregationWithInlineScriptSupport ty then
    promoteScript (floatCoercions ty s)
  else floatCoercions ty s

/-- The in-place mutation performed by `MetricAgg.generateSettingsForDSL`
(time_series_query.go) on the metric's settings object.  (The method's
return value additionally passes through `MustMap`, see
`MetricAgg.generateSettingsForDSL`.) -/
def MetricAgg.mutateSettingsForDSL (m : MetricAgg) : JValue :=
  mutateSettings m.type m.settings

/-- `MetricAgg.generateSettingsForDSL` (time_series_query.go): mutate the
settings (float coercions, script promotion) and return them as a map. -/
def MetricAgg.generateSettingsForDSL (m : MetricAgg) : JValue :=
  mustMapJ m.mutateSettingsForDSL

/-- `BucketAgg.generateSettingsForDSL` (time_series_query.go): coerce
`min_doc_count` from string to integer and return the settings map. -/
def BucketAgg.generateSettingsForDSL (b : BucketAgg) : JValue :=
  mustMapJ (setIntPath b.settings ["min_doc_count"])

/-- The bucket-loop mutation (time_series_query.go line 121):
`bucketAgg.Settings = simplejson.NewFromAny(bucketAgg.generateSettingsForDSL())`. -/
def normalizeBucket (b : BucketAgg) : BucketAgg :=
  { b with settings := b.generateSettingsForDSL }

/-- Payload of one node of the built aggregation tree, per aggregation
kind.  Field contents follow the corresponding `add*Agg` function of
time_series_query.go; the concrete es-client builder types are not among
the provided sources and are modelled from the spec's wire-shape
description. -/
inductive AggPayload where
  | dateHistogram (field fixedInterval : String) (minDocCount : Int)
      (boundsMin boundsMax : Int) (format : String)
      (offset missing timeZone : Option String)
  | histogram (field : String) (interval minDocCount : Int)
      (missing : Option Int)
  | filters (fs : List (String × String))
  | terms (field : String) (size : Int) (minDocCount : Option Int)
      (missing : Option String) (order : List (String × String))
  | geohashGrid (field : String) (precision : Int)
  | metric (ty field : String) (settings : JValue)
  | pipeline (ty : String) (bucketPath : JValue) (settings : JValue)

/-- One node of the built aggregation tree: key, payload, children. -/
inductive AggNode where
  | node (id : String) (payload : AggPayload) (children : List AggNode)

/-- `addDateHistogramAgg` (time_series_query.go): field defaulting, the
`auto` interval rewrite, extended bounds, optional offset / missing /
timezone (the latter only when not `utc`). -/
def dateHistPayload (ba : BucketAgg) (timeFrom timeTo : Int)
    (timeField : String) : AggPayload :=
  let field := if ba.field = "" then timeField else ba.field
  let fixedInterval := jMustString (jGet ba.settings "interval") "auto"
  let fixedInterval :=
    if fixedInterval = "auto" then "$__interval_msms" else fixedInterval
  .dateHistogram field fixedInterval
    (jMustInt (jGet ba.settings "min_doc_count") 0) timeFrom timeTo
    (jMustString (jGet ba.settings "format") dateFormatEpochMS)
    (jString (jGet ba.settings "offset"))
    (jString (jGet ba.settings "missing"))
    (match jString (jGet ba.settings "timeZone") with
     | some tz => if tz = "utc" then none else some tz
     | none => none)

/-- `addHistogramAgg` (time_series_query.go). -/
def histogramPayload (ba : BucketAgg) : AggPayload :=
  .histogram ba.field (jMustInt (jGet ba.settings "interval") 1000)
    (jMustInt (jGet ba.settings "min_doc_count") 0)
    (jInt (jGet ba.settings "missing"))

/-- The filter map of `addFiltersAgg` (time_series_query.go): label →
query-string filter, the label defaulting to the query text. -/
def filtersFromArr (arr : List JValue) : List (String × String) :=
  arr.foldl
    (fun acc fj =>
      let query := jMustString (jGet fj "query") ""
      let label := jMustString (jGet fj "label") ""
      let label := if label = "" then query else label
      assocSet acc label query)
    []

/-- The filters declared in a bucket aggregation's settings. -/
def filtersOf (settings : JValue) : List (String × String) :=
  filtersFromArr (jMustArray (jGet settings "filters"))

/-- The leading-digits prefix matched by the `^(\d+)` pattern in
`addTermsAgg` (time_series_query.go). -/
def leadingDigits (s : String) : String :=
  String.mk (s.toList.takeWhile Char.isDigit)

/-- The `size` computed by `addTermsAgg` (time_series_query.go lines
316-330): integer setting, else numeric string (500 when unparseable),
else 500; a resulting literal zero is replaced by 500. -/
def termsSize (settings : JValue) : Int :=
  let raw : Int :=
    match jInt (jGet settings "size") with
    | some n => n
    | none =>
        match jString (jGet settings "size") with
        | some s =>
            match goParseInt s with
            | some n => n
            | none => 500
        | none => 500
  if raw = 0 then 500 else raw

/-- First matching sibling metric by ID (the linear scans of
time_series_query.go lines 152-157, 177-182, 348-358). -/
def resolveSibling (metrics : List MetricAgg) (ref : String) :
    Option MetricAgg :=
  metrics.find? (fun pm => pm.id == ref)

/-- The `orderBy` handling of `addTermsAgg` (time_series_query.go lines
339-362): returns the order map entries and the extra sibling metric
sub-aggregation attached to make the order key computable. -/
def termsOrderAndExtra (ba : BucketAgg) (metrics : List MetricAgg) :
    List (String × String) × List AggNode :=
  match jString (jGet ba.settings "orderBy") with
  | none => ([], [])
  | some orderBy =>
      let metricId := leadingDigits orderBy
      let orderDir := jMustString (jGet ba.settings "order") "desc"
      if metricId.length > 0 then
        match resolveSibling metrics metricId with
        | some m =>
            if m.type = "count" then ([("_count", orderDir)], [])
            else ([(orderBy, orderDir)],
                  [AggNode.node m.id (.metric m.type m.field .null) []])
        | none => ([], [])
      else ([(orderBy, orderDir)], [])

/-- `addTermsAgg`'s terms payload (size, optional min_doc_count and
missing, order map). -/
def termsPayload (ba : BucketAgg) (ord : List (String × String)) :
    AggPayload :=
  .terms ba.field (termsSize ba.settings)
    (jInt (jGet ba.settings "min_doc_count"))
    (jString (jGet ba.settings "missing")) ord

/-- One step of the bucket-paths loop for a multi-input pipeline metric
(time_series_query.go lines 149-166): an integer-like reference that
resolves to a sibling contributes the count sentinel or the raw ID;
anything else leaves the mapping unchanged. -/
def resolvePipelineVar (all : List MetricAgg)
    (acc : List (String × JValue)) (v : String × String) :
    List (String × JValue) :=
  match goParseInt v.2 with
  | some _ =>
      match resolveSibling all v.2 with
      | some appliedAgg =>
          if appliedAgg.type = countType then
            assocSet acc v.1 (.jstr "_count")
          else assocSet acc v.1 (.jstr v.2)
      | none => acc
  | none => acc

/-- The bucket-paths mapping built for a multi-input pipeline metric. -/
def resolvePipelineVars (all : List MetricAgg)
    (vars : List (String × String)) : List (String × JValue) :=
  vars.foldl (resolvePipelineVar all) []

/-- Post-state of a metric whose settings were normalised in place by the
emission callback (`a.Settings = m.generateSettingsForDSL()` runs the
mutation on the shared settings object). -/
def metricPost (m : MetricAgg) : MetricAgg :=
  { m with settings := m.mutateSettingsForDSL }

/-- The metric-attachment loop (time_series_query.go lines 138-202),
returning the emitted metric/pipeline nodes and the post-state of the
iterated metric list (in-place settings mutation represented
explicitly).  `all` is the same metric list, used for sibling lookups. -/
def buildMetricNodesAndPost (all : List MetricAgg) :
    List MetricAgg → List AggNode × List MetricAgg
  | [] => ([], [])
  | m :: rest =>
      let np := buildMetricNodesAndPost all rest
      if m.type = countType then (np.1, m :: np.2)
      else if isPipelineAgg m.type then
        if isPipelineAggWithMultipleBucketPaths m.type then
          if m.pipelineVariables.length > 0 then
            (AggNode.node m.id
               (.pipeline m.type
                  (.jobj (resolvePipelineVars all m.pipelineVariables))
                  m.generateSettingsForDSL) [] :: np.1,
             metricPost m :: np.2)
          else (np.1, m :: np.2)
        else
          match goParseInt m.pipelineAggregate with
          | some _ =>
              match resolveSibling all m.pipelineAggregate with
              | some appliedAgg =>
                  let bucketPath :=
                    if appliedAgg.type = countType then "_count"
                    else m.pipelineAggregate
                  (AggNode.node m.id
                     (.pipeline m.type (.jstr bucketPath)
                        m.generateSettingsForDSL) [] :: np.1,
                   metricPost m :: np.2)
              | none => (np.1, m :: np.2)
          | none => (np.1, m :: np.2)
      else
        (AggNode.node m.id (.metric m.type m.field m.generateSettingsForDSL)
           [] :: np.1,
         metricPost m :: np.2)

/-- The emitted metric/pipeline nodes of the metric-attachment loop. -/
def buildMetricNodes (all iter : List MetricAgg) : List AggNode :=
  (buildMetricNodesAndPost all iter).1

/-- The bucket-aggregation loop (time_series_query.go lines 117-136)
followed by the metric-attachment loop at the innermost level: returns the
top-level aggregation nodes, the post-state of the bucket list (settings
normalised) and the post-state of the metric list.  Each recognised
bucket aggregation emits one node whose children hold everything nested
below it; a filters aggregation with no filters and an unrecognised type
emit nothing, so deeper aggregations attach at the same level — exactly
the `aggBuilder` rebinding discipline of the source. -/
def buildAggsAndPost (all : List MetricAgg) (timeFrom timeTo : Int)
    (timeField : String) :
    List BucketAgg → List AggNode × List BucketAgg × List MetricAgg
  | [] =>
      let np := buildMetricNodesAndPost all all
      (np.1, [], np.2)
  | ba :: rest =>
      let ba' := normalizeBucket ba
      let r := buildAggsAndPost all timeFrom timeTo timeField rest
      let nodes :=
        if ba.type = dateHistType then
          [AggNode.node ba'.id (dateHistPayload ba' timeFrom timeTo timeField)
             r.1]
        else if ba.type = histogramType then
          [AggNode.node ba'.id (histogramPayload ba') r.1]
        else if ba.type = filtersType then
          let fs := filtersOf ba'.settings
          if fs.length > 0 then [AggNode.node ba'.id (.filters fs) r.1]
          else r.1
        else if ba.type = termsType then
          let oe := termsOrderAndExtra ba' all
          [AggNode.node ba'.id (termsPayload ba' oe.1) (oe.2 ++ r.1)]
        else if ba.type = geohashGridType then
          [AggNode.node ba'.id
             (.geohashGrid ba'.field (jMustInt (jGet ba'.settings "precision") 3))
             r.1]
        else r.1
      (nodes, ba' :: r.2.1, r.2.2)

/-- The top-level aggregation nodes built for a query's bucket and metric
aggregations. -/
def buildAggs (all : List MetricAgg) (timeFrom timeTo : Int)
    (timeField : String) (bas : List BucketAgg) : List AggNode :=
  (buildAggsAndPost all timeFrom timeTo timeField bas).1

/-- The search body built for one query: Modelled from the spec's wire
shape (§6) for the es-client `SearchRequestBuilder`, which is not among
the provided sources — size-0 body, boolean filter with date-range and
query-string sub-filters, sorts / doc-value fields / highlight for raw and
log queries, and the aggregation tree. -/
structure SearchBody where
  size : Int
  sorts : List (String × String)
  docValueFields : List String
  highlight : Bool
  rangeField : String
  rangeTo : Int
  rangeFrom : Int
  rangeFormat : String
  queryString : String
  aggs : List AggNode

/-- The contribution of one query to the batch: either a per-panel error
result recorded under its reference ID (the batch continues), or a search
body folded into the multi-search request. -/
inductive ProcessOutcome where
  | errorResponse (refId msg : String)
  | request (body : SearchBody)

/-- The synthesized date-histogram bucket aggregation appended to a logs
query (time_series_query.go lines 100-107). -/
def logsSynthBucket (timeField : String) : BucketAgg :=
  { id := "1", type := dateHistType, field := timeField,
    settings := .jobj [("interval", .jstr "auto")] }

/-- `processQuery` (time_series_query.go lines 62-205), for one query:
returns its contribution to the batch and the post-state of the query
(settings normalisation and, for zero-bucket logs queries, the appended
synthesized bucket aggregation, representing the source's in-place
mutations).  The interval calculation and the client's minimum-interval
lookup only shape the multi-search header and are omitted; the per-query
search body is modelled in full. -/
def processQuery (q : Query) (fromMs toMs : Int) (timeField : String) :
    ProcessOutcome × Query :=
  let base : SearchBody :=
    { size := 0, sorts := [], docValueFields := [], highlight := false,
      rangeField := timeField, rangeTo := toMs, rangeFrom := fromMs,
      rangeFormat := dateFormatEpochMS, queryString := q.rawQuery,
      aggs := [] }
  if q.bucketAggs.isEmpty then
    match q.metrics with
    | [] =>
        (.errorResponse q.refId "invalid query, missing metrics and aggregations", q)
    | metric :: _ =>
        if metric.type = "raw_data" ∨ metric.type = "raw_document" ∨
            metric.type = "logs" then
          let body :=
            { base with
                sorts := [(timeField, "boolean"), ("_doc", "")],
                docValueFields := [timeField],
                size := jMustInt (jGet metric.settings "size") 500 }
          if metric.type = "logs" then
            let body :=
              { body with
                  size := jMustInt (jGet metric.settings "limit") 500,
                  highlight := true }
            let synth := normalizeBucket (logsSynthBucket timeField)
            let body :=
              { body with
                  aggs := [AggNode.node synth.id
                             (dateHistPayload synth fromMs toMs timeField) []] }
            (.request body, { q with bucketAggs := [synth] })
          else (.request body, q)
        else
          (.errorResponse q.refId "invalid query, missing metrics and aggregations", q)
  else
    let r := buildAggsAndPost q.metrics fromMs toMs timeField q.bucketAggs
    (.request { base with aggs := r.1 },
     { q with bucketAggs := r.2.1, metrics := r.2.2 })

/-- The per-query loop of `execute` (time_series_query.go lines 43-47):
fold every query into the batch, collecting per-panel error responses
(keyed by reference ID) and the built search bodies.  Client-side
failures (`GetMinInterval`) are outside the model; `processQuery` itself
never returns a hard error. -/
def processAll (qs : List Query) (fromMs toMs : Int) (timeField : String) :
    List (String × String) × List SearchBody :=
  match qs with
  | [] => ([], [])
  | q :: rest =>
      let out := (processQuery q fromMs toMs timeField).1
      let r := processAll rest fromMs toMs timeField
      match out with
      | .errorResponse rid msg => ((rid, msg) :: r.1, r.2)
      | .request body => (r.1, body :: r.2)

/-- One incoming data query: the shared time range and its parse outcome.
Modelled from the spec: the Query Model Parser (§4.1) is not among the
provided sources; each raw per-panel specification either parses to a
`Query` or fails with a parse error, so a raw query is represented by its
parse outcome. -/
structure DataQuery where
  fromNanos : Int
  toNanos : Int
  parsed : Except String Query

/-- Modelled from the spec: `parseQuery` (§4.1) — parse every data query
in order, failing on the first invalid one; an empty list parses to the
empty query list. -/
def parseQuery : List DataQuery → Except String (List Query)
  | [] => .ok []
  | dq :: rest =>
      match dq.parsed with
      | .error e => .error e
      | .ok q =>
          match parseQuery rest with
          | .error e => .error e
          | .ok qs => .ok (q :: qs)

/-- Outcome of `execute` up to dispatching the multi-search request:
parse failure, an index-out-of-bounds panic on the data-query list, or
the built batch (responses recorded so far and request bodies). -/
inductive ExecResult where
  | parseError (e : String)
  | panicked
  | built (responses : List (String × String)) (requests : List SearchBody)

/-- `execute` (time_series_query.go lines 30-47) up to the client
round-trip: parse the data queries, then unconditionally read
`e.dataQueries[0].TimeRange` for the shared from/to — an out-of-bounds
panic when the list is empty — and fold every parsed query into the
batch. -/
def execute (dqs : List DataQuery) (timeField : String) : ExecResult :=
  match parseQuery dqs with
  | .error e => .parseError e
  | .ok queries =>
      match dqs.head? with
      | none => .panicked
      | some dq0 =>
          let fromMs := dq0.fromNanos / 1000000
          let toMs := dq0.toNanos / 1000000
          let r := processAll queries fromMs toMs timeField
          .built r.1 r.2

/-- Whether a payload is a bucket aggregation (as opposed to a metric or
pipeline sub-aggregation). -/
def isBucketPayload : AggPayload → Bool
  | .dateHistogram .. => true
  | .histogram .. => true
  | .filters _ => true
  | .terms .. => true
  | .geohashGrid .. => true
  | .metric .. => false
  | .pipeline .. => false

/-- The aggregation-type name a payload was built for. -/
def AggPayload.typeName : AggPayload → String
  | .dateHistogram .. => dateHistType
  | .histogram .. => histogramType
  | .filters _ => filtersType
  | .terms .. => termsType
  | .geohashGrid .. => geohashGridType
  | .metric ty _ _ => ty
  | .pipeline ty _ _ => ty

/-- Whether a node is a bucket aggregation node. -/
def isBucketNode : AggNode → Bool
  | .node _ p _ => isBucketPayload p

/-- The chain of nested bucket-aggregation nodes, outermost first: at each
level, the first bucket node is followed down into its children;
metric/pipeline siblings are passed over. -/
def bucketChainOf : List AggNode → List (String × String)
  | [] => []
  | AggNode.node i p c :: rest =>
      if isBucketPayload p then (i, p.typeName) :: bucketChainOf c
      else bucketChainOf rest

/-- Every node of a forest, the roots included. -/
def allNodesList : List AggNode → List AggNode
  | [] => []
  | AggNode.node i p c :: rest =>
      AggNode.node i p c :: (allNodesList c ++ allNodesList rest)

/-- The `size` of the first node when it is a terms aggregation. -/
def headTermsSize : List AggNode → Option Int
  | AggNode.node _ (.terms _ size _ _ _) _ :: _ => some size
  | _ => none

/-- Whether a bucket aggregation emits a tree node: recognised type, and
for a filters aggregation a non-empty filter set. -/
def emitsNode (ba : BucketAgg) : Bool :=
  if ba.type = dateHistType then true
  else if ba.type = histogramType then true
  else if ba.type = filtersType then (filtersOf ba.settings).length > 0
  else if ba.type = termsType then true
  else if ba.type = geohashGridType then true
  else false

/-- Whether the metric-attachment loop emits a node for this metric (and
therefore runs its settings-normalisation callback). -/
def metricEmitted (all : List MetricAgg) (m : MetricAgg) : Bool :=
  if m.type = countType then false
  else if isPipelineAgg m.type then
    if isPipelineAggWithMultipleBucketPaths m.type then
      m.pipelineVariables.length > 0
    else
      match goParseInt m.pipelineAggregate with
      | some _ => (resolveSibling all m.pipelineAggregate).isSome
      | none => false
  else true

/-- Whether a query takes the zero-bucket logs path, which appends a
synthesized date-histogram bucket aggregation to the query. -/
def isZeroBucketLogs (q : Query) : Bool :=
  q.bucketAggs.isEmpty &&
    (match q.metrics with
     | m :: _ => m.type = "logs"
     | [] => false)

/-- Two paths name independent locations: they differ at some common
index, so neither is a prefix of the other. -/
def pathDiverge : List String → List String → Bool
  | k :: p, k' :: q => if k = k' then pathDiverge p q else true
  | _, _ => false

/-- A string-to-value coercion attempt at one settings path, the common
shape of `setFloatPath` and `setIntPath`. -/
def setConvPath (conv : String → Option JValue) (settings : JValue)
    (path : List String) : JValue :=
  match jString (jGetPath settings path) with
  | some stringValue =>
      match conv stringValue with
      | some value => jSetPath settings path value
      | none => settings
  | none => settings

/-- The float coercion used by `setFloatPath`. -/
def floatConv (str : String) : Option JValue :=
  (goParseFloat str).map .jfloat

/-- The integer coercion used by `setIntPath`. -/
def intConv (str : String) : Option JValue :=
  (goParseInt str).map .jint

/-- Sequence of coercion attempts, one per path, in order. -/
def setConvPaths (conv : String → Option JValue) (s : JValue)
    (ps : List (List String)) : JValue :=
  ps.foldl (setConvPath conv) s

/-- No further coercion can fire at a path: the value there is not a
convertible string. -/
def convStable (conv : String → Option JValue) (s : JValue)
    (p : List String) : Prop :=
  ∀ str, jString (jGetPath s p) = some str → conv str = none

/-- The object fields of a value, empty for non-objects. -/
def jFields : JValue → List (String × JValue)
  | .jobj f => f
  | _ => []

/-- The metric used in the C1 counterexample: a `bucket_script` pipeline
whose single named variable references `"x"`, which is not an
integer-like ID, so the resolved bucket-path mapping is empty. -/
def c1CexMetric : MetricAgg :=
  { id := "2", type := "bucket_script", field := "", settings := .null,
    pipelineAggregate := "", pipelineVariables := [("v", "x")] }

/-- The count metric referenced in the C3 witness. -/
def c3Count : MetricAgg :=
  { id := "1", type := "count", field := "", settings := .null,
    pipelineAggregate := "", pipelineVariables := [] }

/-- The derivative metric of the C3 witness, referencing the count
sibling by ID. -/
def c3Deriv : MetricAgg :=
  { id := "4", type := "derivative", field := "", settings := .null,
    pipelineAggregate := "1", pipelineVariables := [] }

/-- The plain metric of the C4 witness. -/
def c4AvgMetric : MetricAgg :=
  { id := "7", type := "avg", field := "f", settings := .null,
    pipelineAggregate := "", pipelineVariables := [] }

/-- The filters bucket aggregation of the C2 counterexample: its settings
declare no filters, so no node is emitted for it. -/
def c2CexBucket : BucketAgg :=
  { id := "5", type := "filters", field := "", settings := .null }

/-- The metric-less, bucket-less query of the C8 witness. -/
def c8BadQuery : Query :=
  { refId := "B", rawQuery := "", interval := "", maxDataPoints := 0,
    bucketAggs := [], metrics := [] }

/-- The zero-bucket logs query of the C9 counterexample. -/
def c9LogsQuery : Query :=
  { refId := "A", rawQuery := "", interval := "", maxDataPoints := 0,
    bucketAggs := [],
    metrics := [{ id := "1", type := "logs", field := "", settings := .null,
                  pipelineAggregate := "", pipelineVariables := [] }] }

/-- The one-bucket query of the C9 witness. -/
def c9WitnessQuery : Query :=
  { refId := "W", rawQuery := "", interval := "", maxDataPoints := 0,
    bucketAggs := [{ id := "3", type := "terms", field := "h",
                     settings := .null }],
    metrics := [] }

/-- The data query of the C10 witness. -/
def c10DataQuery : DataQuery :=
  { fromNanos := 0, toNanos := 0,
    parsed := .ok { refId := "Q", rawQuery := "", interval := "",
                    maxDataPoints := 0, bucketAggs := [], metrics := [] } }

theorem assocFind_assocSet_self {α : Type} (l : List (String × α))
    (k : String) (v : α) : assocFind (assocSet l k v) k = some v := by
  induction l with
  | nil => simp [assocSet, assocFind]
  | cons hd tl ih =>
      obtain ⟨k', v'⟩ := hd
      by_cases h : k' = k
      · simp [assocSet, assocFind, h]
      · simp [assocSet, assocFind, h, ih]

theorem assocFind_assocSet_ne {α : Type} (l : List (String × α))
    (k k' : String) (v : α) (h : k' ≠ k) :
    assocFind (assocSet l k' v) k = assocFind l k := by
  have h' : ¬k = k' := fun e => h e.symm
  induction l with
  | nil => simp [assocSet, assocFind, h]
  | cons hd tl ih =>
      obtain ⟨k₀, v₀⟩ := hd
      by_cases h0 : k₀ = k'
      · simp [assocSet, assocFind, h0, h, h']
      · by_cases h1 : k₀ = k
        · simp [assocSet, assocFind, h0, h1, h']
        · simp [assocSet, assocFind, h0, h1, ih]

theorem assocSet_self {α : Type} (l : List (String × α)) (k : String)
    (v : α) (h : assocFind l k = some v) : assocSet l k v = l := by
  induction l with
  | nil => simp [assocFind] at h
  | cons hd tl ih =>
      obtain ⟨k₀, v₀⟩ := hd
      by_cases h0 : k₀ = k
      · subst h0
        simp [assocFind] at h
        simp [assocSet, h]
      · simp [assocFind, h0] at h
        simp [assocSet, h0, ih h]

theorem jString_null : jString .null = none := rfl

theorem jGet_nonobj (s : JValue) (k : String) (h : s.isObj = false) :
    jGet s k = .null := by
  cases s <;> simp_all [jGet, JValue.isObj]

theorem jGetPath_null (p : List String) : jGetPath .null p = .null := by
  induction p with
  | nil => rfl
  | cons k ks ih => simpa [jGetPath, jGet] using ih

theorem jGetPath_nonobj (s : JValue) (k : String) (ks : List String)
    (h : s.isObj = false) : jGetPath s (k :: ks) = .null := by
  show jGetPath (jGet s k) ks = .null
  rw [jGet_nonobj s k h, jGetPath_null]

theorem jSetPath_nil (s v : JValue) : jSetPath s [] v = v := rfl

theorem jSetPath_cons (s : JValue) (k : String) (ks : List String)
    (v : JValue) :
    jSetPath s (k :: ks) v =
      .jobj (assocSet (jFields s) k
        (jSetPath ((assocFind (jFields s) k).getD .null) ks v)) := by
  cases s <;> rfl

theorem jGet_fields (s : JValue) (k : String) :
    jGet s k = (assocFind (jFields s) k).getD .null := by
  cases s <;> rfl

theorem jGetPath_jSetPath_self (p : List String) :
    ∀ (s v : JValue), jGetPath (jSetPath s p v) p = v := by
  induction p with
  | nil => intro s v; rfl
  | cons k ks ih =>
      intro s v
      rw [jSetPath_cons]
      show jGetPath (jGet (.jobj (assocSet (jFields s) k _)) k) ks = v
      rw [jGet_fields]
      show jGetPath ((assocFind (assocSet (jFields s) k _) k).getD .null) ks = v
      rw [assocFind_assocSet_self]
      exact ih _ v

theorem jGetPath_jSetPath_diverge (p : List String) :
    ∀ (q : List String), pathDiverge p q = true →
      ∀ (s v : JValue), jGetPath (jSetPath s q v) p = jGetPath s p := by
  induction p with
  | nil => intro q h s v; cases q <;> simp [pathDiverge] at h
  | cons k ks ih =>
      intro q h s v
      cases q with
      | nil => simp [pathDiverge] at h
      | cons k' ks' =>
          rw [jSetPath_cons]
          show jGetPath (jGet (.jobj (assocSet (jFields s) k' _)) k) ks =
            jGetPath (jGet s k) ks
          by_cases hk : k' = k
          · subst hk
            have h' : pathDiverge ks ks' = true := by
              simpa [pathDiverge] using h
            rw [jGet_fields]
            show jGetPath ((assocFind (assocSet (jFields s) k' _) k').getD .null) ks =
              jGetPath (jGet s k') ks
            rw [assocFind_assocSet_self]
            show jGetPath (jSetPath ((assocFind (jFields s) k').getD .null) ks' v) ks =
              jGetPath (jGet s k') ks
            rw [ih ks' h', jGet_fields]
          · rw [jGet_fields]
            show jGetPath ((assocFind (assocSet (jFields s) k' _) k).getD .null) ks =
              jGetPath (jGet s k) ks
            rw [assocFind_assocSet_ne _ _ _ _ hk, ← jGet_fields]

theorem jSetPath_single_idem (s : JValue) (k : String) (v : JValue) :
    jSetPath (jSetPath s [k] v) [k] v = jSetPath s [k] v := by
  rw [jSetPath_cons s k [] v, jSetPath_nil, jSetPath_cons, jSetPath_nil]
  show JValue.jobj (assocSet (assocSet (jFields s) k v) k v) =
    .jobj (assocSet (jFields s) k v)
  exact congrArg JValue.jobj
    (assocSet_self _ _ _ (assocFind_assocSet_self _ k v))

theorem setFloatPath_eq_conv (s : JValue) (p : List String) :
    setFloatPath s p = setConvPath floatConv s p := by
  unfold setFloatPath setConvPath floatConv
  cases hs : jString (jGetPath s p) with
  | none => rfl
  | some str => cases hf : goParseFloat str <;> simp [hf]

theorem setIntPath_eq_conv (s : JValue) (p : List String) :
    setIntPath s p = setConvPath intConv s p := by
  unfold setIntPath setConvPath intConv
  cases hs : jString (jGetPath s p) with
  | none => rfl
  | some str => cases hf : goParseInt str <;> simp [hf]

theorem floatConv_not_string (str : String) (v : JValue)
    (h : floatConv str = some v) : jString v = none := by
  unfold floatConv at h
  cases hf : goParseFloat str <;> rw [hf] at h <;> simp at h
  rw [← h]; rfl

theorem intConv_not_string (str : String) (v : JValue)
    (h : intConv str = some v) : jString v = none := by
  unfold intConv at h
  cases hf : goParseInt str <;> rw [hf] at h <;> simp at h
  rw [← h]; rfl

theorem setConvPath_set {conv : String → Option JValue} {s : JValue}
    {p : List String} {str : String} {v : JValue}
    (hs : jString (jGetPath s p) = some str) (hc : conv str = some v) :
    setConvPath conv s p = jSetPath s p v := by
  unfold setConvPath
  rw [hs]
  show (match conv str with
        | some value => jSetPath s p value
        | none => s) = _
  rw [hc]

theorem setConvPath_noconv {conv : String → Option JValue} {s : JValue}
    {p : List String} {str : String}
    (hs : jString (jGetPath s p) = some str) (hc : conv str = none) :
    setConvPath conv s p = s := by
  unfold setConvPath
  rw [hs]
  show (match conv str with
        | some value => jSetPath s p value
        | none => s) = _
  rw [hc]

theorem setConvPath_nostr {conv : String → Option JValue} {s : JValue}
    {p : List String} (hs : jString (jGetPath s p) = none) :
    setConvPath conv s p = s := by
  unfold setConvPath
  rw [hs]

theorem setConvPath_of_stable (conv : String → Option JValue) (s : JValue)
    (p : List String) (h : convStable conv s p) : setConvPath conv s p = s := by
  cases hs : jString (jGetPath s p) with
  | none => exact setConvPath_nostr hs
  | some str => exact setConvPath_noconv hs (h str hs)

theorem convStable_setConvPath_self {conv : String → Option JValue}
    (hconv : ∀ str v, conv str = some v → jString v = none)
    (s : JValue) (p : List String) :
    convStable conv (setConvPath conv s p) p := by
  intro str h
  cases hs : jString (jGetPath s p) with
  | none =>
      rw [setConvPath_nostr hs] at h
      rw [hs] at h
      cases h
  | some str0 =>
      cases hc : conv str0 with
      | none =>
          rw [setConvPath_noconv hs hc] at h
          rw [hs] at h
          cases h
          exact hc
      | some v =>
          rw [setConvPath_set hs hc] at h
          rw [jGetPath_jSetPath_self] at h
          rw [hconv str0 v hc] at h
          cases h

theorem jGetPath_setConvPath_diverge (conv : String → Option JValue)
    {p q : List String} (h : pathDiverge p q = true) (s : JValue) :
    jGetPath (setConvPath conv s q) p = jGetPath s p := by
  cases hs : jString (jGetPath s q) with
  | none => rw [setConvPath_nostr hs]
  | some str =>
      cases hc : conv str with
      | none => rw [setConvPath_noconv hs hc]
      | some v =>
          rw [setConvPath_set hs hc]
          exact jGetPath_jSetPath_diverge p q h s v

theorem convStable_diverge (conv : String → Option JValue)
    {p q : List String} (h : pathDiverge p q = true) (s : JValue)
    (hst : convStable conv s p) : convStable conv (setConvPath conv s q) p := by
  intro str hstr
  rw [jGetPath_setConvPath_diverge conv h] at hstr
  exact hst str hstr

theorem isObj_jSetPath (s v : JValue) (k : String) (ks : List String) :
    (jSetPath s (k :: ks) v).isObj = true := by
  cases s <;> simp [jSetPath, JValue.isObj]

theorem isObj_setConvPath (conv : String → Option JValue) (s : JValue)
    (k : String) (ks : List String) (h : s.isObj = true) :
    (setConvPath conv s (k :: ks)).isObj = true := by
  cases hs : jString (jGetPath s (k :: ks)) with
  | none => rw [setConvPath_nostr hs]; exact h
  | some str =>
      cases hc : conv str with
      | none => rw [setConvPath_noconv hs hc]; exact h
      | some v => rw [setConvPath_set hs hc]; exact isObj_jSetPath s v k ks

theorem setConvPath_nonobj (conv : String → Option JValue) (s : JValue)
    (k : String) (ks : List String) (h : s.isObj = false) :
    setConvPath conv s (k :: ks) = s := by
  refine setConvPath_nostr ?_
  rw [jGetPath_nonobj s k ks h]
  rfl

theorem mustMapJ_obj (s : JValue) (h : s.isObj = true) : mustMapJ s = s := by
  cases s <;> simp_all [mustMapJ, JValue.isObj]

theorem mustMapJ_isObj (s : JValue) : (mustMapJ s).isObj = true := by
  cases s <;> simp [mustMapJ, JValue.isObj]

theorem mustMapJ_nonobj (s : JValue) (h : s.isObj = false) :
    mustMapJ s = .jobj [] := by
  cases s <;> simp_all [mustMapJ, JValue.isObj]

theorem mustMapJ_idem (s : JValue) : mustMapJ (mustMapJ s) = mustMapJ s := by
  cases s <;> rfl

theorem convStable_emptyobj (conv : String → Option JValue) (k : String)
    (ks : List String) : convStable conv (.jobj []) (k :: ks) := by
  intro str hstr
  have : jGetPath (JValue.jobj []) (k :: ks) = .null := by
    show jGetPath (jGet (.jobj []) k) ks = .null
    have : jGet (.jobj []) k = .null := rfl
    rw [this, jGetPath_null]
  rw [this] at hstr
  cases hstr

theorem setConvPaths_cons (conv : String → Option JValue) (s : JValue)
    (p : List String) (ps : List (List String)) :
    setConvPaths conv s (p :: ps) = setConvPaths conv (setConvPath conv s p) ps := rfl

theorem setConvPaths_of_stable (conv : String → Option JValue) (s : JValue)
    (ps : List (List String)) (h : ∀ p ∈ ps, convStable conv s p) :
    setConvPaths conv s ps = s := by
  induction ps with
  | nil => rfl
  | cons p ps ih =>
      rw [setConvPaths_cons,
        setConvPath_of_stable conv s p (h p (List.mem_cons_self p ps))]
      exact ih fun q hq => h q (List.mem_cons_of_mem p hq)

theorem convStable_preserve_list (conv : String → Option JValue)
    (p : List String) (qs : List (List String))
    (hdivs : ∀ q ∈ qs, pathDiverge p q = true) :
    ∀ (s : JValue), convStable conv s p →
      convStable conv (setConvPaths conv s qs) p := by
  induction qs with
  | nil => intro s h; exact h
  | cons q qs ih =>
      intro s h
      rw [setConvPaths_cons]
      exact ih (fun r hr => hdivs r (List.mem_cons_of_mem q hr)) _
        (convStable_diverge conv (hdivs q (List.mem_cons_self q qs)) s h)

theorem convStable_setConvPaths
    (hconv : ∀ str v, conv str = some v → jString v = none)
    (ps : List (List String))
    (hdiv : List.Pairwise (fun p q => pathDiverge p q = true) ps) :
    ∀ (s : JValue) (p : List String), p ∈ ps →
      convStable conv (setConvPaths conv s ps) p := by
  induction ps with
  | nil => intro s p hp; cases hp
  | cons p0 ps ih =>
      intro s p hp
      rcases List.mem_cons.mp hp with rfl | hp'
      · rw [setConvPaths_cons]
        exact convStable_preserve_list conv p ps
          (List.pairwise_cons.mp hdiv).1 _
          (convStable_setConvPath_self hconv s p)
      · rw [setConvPaths_cons]
        exact ih (List.pairwise_cons.mp hdiv).2 _ p hp'

theorem isObj_setConvPaths (conv : String → Option JValue) (s : JValue)
    (ps : List (List String)) (hne : ∀ p ∈ ps, p ≠ [])
    (h : s.isObj = true) : (setConvPaths conv s ps).isObj = true := by
  induction ps generalizing s with
  | nil => exact h
  | cons p ps ih =>
      rw [setConvPaths_cons]
      rcases p with _ | ⟨k, ks⟩
      · exact absurd rfl (hne [] (List.mem_cons_self _ _))
      · apply ih
        · exact fun q hq => hne q (List.mem_cons_of_mem _ hq)
        · exact isObj_setConvPath conv s k ks h

theorem setConvPaths_nonobj (conv : String → Option JValue) (s : JValue)
    (ps : List (List String)) (hne : ∀ p ∈ ps, p ≠ [])
    (h : s.isObj = false) : setConvPaths conv s ps = s := by
  induction ps with
  | nil => rfl
  | cons p ps ih =>
      rcases p with _ | ⟨k, ks⟩
      · exact absurd rfl (hne [] (List.mem_cons_self _ _))
      · rw [setConvPaths_cons, setConvPath_nonobj conv s k ks h]
        exact ih fun q hq => hne q (List.mem_cons_of_mem _ hq)

theorem setConvPaths_mustMap_idem
    (hconv : ∀ str v, conv str = some v → jString v = none)
    (ps : List (List String)) (hne : ∀ p ∈ ps, p ≠ [])
    (hdiv : List.Pairwise (fun p q => pathDiverge p q = true) ps)
    (s : JValue) :
    setConvPaths conv (mustMapJ (setConvPaths conv s ps)) ps =
      mustMapJ (setConvPaths conv s ps) := by
  by_cases hobj : s.isObj = true
  · have hr : (setConvPaths conv s ps).isObj = true :=
      isObj_setConvPaths conv s ps hne hobj
    rw [mustMapJ_obj _ hr]
    exact setConvPaths_of_stable conv _ ps fun p hp =>
      convStable_setConvPaths hconv ps hdiv s p hp
  · have hobj' : s.isObj = false := by
      cases h : s.isObj
      · rfl
      · exact absurd h hobj
    rw [setConvPaths_nonobj conv s ps hne hobj', mustMapJ_nonobj s hobj']
    refine setConvPaths_of_stable conv _ ps fun p hp => ?_
    rcases p with _ | ⟨k, ks⟩
    · exact absurd rfl (hne [] hp)
    · exact convStable_emptyobj conv k ks

theorem setConvPath_mustMap_idem
    (hconv : ∀ str v, conv str = some v → jString v = none)
    (p : List String) (hne : p ≠ []) (s : JValue) :
    setConvPath conv (mustMapJ (setConvPath conv s p)) p =
      mustMapJ (setConvPath conv s p) :=
  setConvPaths_mustMap_idem hconv [p]
    (by intro q hq; rw [List.mem_singleton.mp hq]; exact hne) (by simp) s

theorem promoteScript_top {s : JValue} {str : String}
    (h : jString (jGetPath s ["script"]) = some str) :
    promoteScript s = jSetPath s ["script"] (.jstr str) := by
  unfold promoteScript
  rw [h]

theorem promoteScript_legacy {s : JValue} {str : String}
    (h1 : jString (jGetPath s ["script"]) = none)
    (h2 : jString (jGetPath s ["script", "inline"]) = some str) :
    promoteScript s = jSetPath s ["script"] (.jstr str) := by
  unfold promoteScript
  rw [h1]
  show (match jString (jGetPath s ["script", "inline"]) with
        | some scriptValue => jSetPath s ["script"] (.jstr scriptValue)
        | none => s) = _
  rw [h2]

theorem promoteScript_none {s : JValue}
    (h1 : jString (jGetPath s ["script"]) = none)
    (h2 : jString (jGetPath s ["script", "inline"]) = none) :
    promoteScript s = s := by
  unfold promoteScript
  rw [h1]
  show (match jString (jGetPath s ["script", "inline"]) with
        | some scriptValue => jSetPath s ["script"] (.jstr scriptValue)
        | none => s) = _
  rw [h2]

theorem promoteScript_after_set (s : JValue) (str : String) :
    promoteScript (mustMapJ (jSetPath s ["script"] (.jstr str))) =
      mustMapJ (jSetPath s ["script"] (.jstr str)) := by
  rw [mustMapJ_obj _ (isObj_jSetPath s (.jstr str) "script" [])]
  have hget : jString (jGetPath (jSetPath s ["script"] (.jstr str)) ["script"]) =
      some str := by
    rw [jGetPath_jSetPath_self]
    rfl
  rw [promoteScript_top hget]
  exact jSetPath_single_idem s "script" (.jstr str)

theorem promoteScript_mustMap_stable (s : JValue) :
    promoteScript (mustMapJ (promoteScript s)) = mustMapJ (promoteScript s) := by
  cases h1 : jString (jGetPath s ["script"]) with
  | some str =>
      rw [promoteScript_top h1]
      exact promoteScript_after_set s str
  | none =>
      cases h2 : jString (jGetPath s ["script", "inline"]) with
      | some str =>
          rw [promoteScript_legacy h1 h2]
          exact promoteScript_after_set s str
      | none =>
          rw [promoteScript_none h1 h2]
          cases ho : s.isObj
          · rw [mustMapJ_nonobj s ho]
            rfl
          · rw [mustMapJ_obj s ho]
            exact promoteScript_none h1 h2

theorem setFloatPaths_eq_conv (s : JValue) (ps : List (List String)) :
    setFloatPaths s ps = setConvPaths floatConv s ps := by
  induction ps generalizing s with
  | nil => rfl
  | cons p ps ih =>
      show setFloatPaths (setFloatPath s p) ps =
        setConvPaths floatConv (setConvPath floatConv s p) ps
      rw [setFloatPath_eq_conv]
      exact ih _

theorem movingAvg_pairwise :
    List.Pairwise (fun p q => pathDiverge p q = true) movingAvgPaths := by
  decide

theorem movingAvg_nonempty : ∀ p ∈ movingAvgPaths, p ≠ [] := by decide

theorem mutateSettings_mustMap_idem (ty : String) (s : JValue) :
    mustMapJ (mutateSettings ty (mustMapJ (mutateSettings ty s))) =
      mustMapJ (mutateSettings ty s) := by
  unfold mutateSettings
  by_cases hscr : isMetricAggregationWithInlineScriptSupport ty = true
  · rw [if_pos hscr, if_pos hscr]
    have hfc : ∀ x, floatCoercions ty x = x := by
      intro x
      unfold floatCoercions
      have hma : ty ≠ "moving_avg" := by
        rintro rfl
        exact absurd hscr (by decide)
      have hsd : ty ≠ "serial_diff" := by
        rintro rfl
        exact absurd hscr (by decide)
      rw [if_neg hma, if_neg hsd]
    rw [hfc, hfc, promoteScript_mustMap_stable, mustMapJ_idem]
  · rw [if_neg hscr, if_neg hscr]
    unfold floatCoercions
    by_cases hma : ty = "moving_avg"
    · rw [if_pos hma, if_pos hma]
      simp only [setFloatPaths_eq_conv]
      rw [setConvPaths_mustMap_idem floatConv_not_string movingAvgPaths
        movingAvg_nonempty movingAvg_pairwise s, mustMapJ_idem]
    · by_cases hsd : ty = "serial_diff"
      · rw [if_neg hma, if_pos hsd, if_neg hma, if_pos hsd]
        simp only [setFloatPaths_eq_conv]
        rw [setConvPaths_mustMap_idem floatConv_not_string [["lag"]]
          (by decide) (by decide) s, mustMapJ_idem]
      · rw [if_neg hma, if_neg hsd, if_neg hma, if_neg hsd, mustMapJ_idem]

theorem metric_settings_idem (m : MetricAgg) :
    MetricAgg.generateSettingsForDSL { m with settings := m.generateSettingsForDSL } =
      m.generateSettingsForDSL :=
  mutateSettings_mustMap_idem m.type m.settings

theorem bucket_settings_idem (b : BucketAgg) :
    BucketAgg.generateSettingsForDSL { b with settings := b.generateSettingsForDSL } =
      b.generateSettingsForDSL := by
  show mustMapJ (setIntPath (mustMapJ (setIntPath b.settings ["min_doc_count"]))
      ["min_doc_count"]) = mustMapJ (setIntPath b.settings ["min_doc_count"])
  simp only [setIntPath_eq_conv]
  rw [setConvPath_mustMap_idem intConv_not_string ["min_doc_count"]
    (by decide) b.settings, mustMapJ_idem]

theorem count_not_pipeline {ty : String} (hp : isPipelineAgg ty = true) :
    ty ≠ countType := by
  intro h
  rw [h] at hp
  exact absurd hp (by decide)

theorem resolvePipelineVar_unresolved (all : List MetricAgg)
    (acc : List (String × JValue)) (v : String × String)
    (h : goParseInt v.2 = none ∨ resolveSibling all v.2 = none) :
    resolvePipelineVar all acc v = acc := by
  unfold resolvePipelineVar
  cases hp : goParseInt v.2 with
  | none => rfl
  | some k =>
      rcases h with h | h
      · rw [hp] at h
        cases h
      · show (match resolveSibling all v.2 with
              | some appliedAgg =>
                  if appliedAgg.type = countType then
                    assocSet acc v.1 (.jstr "_count")
                  else assocSet acc v.1 (.jstr v.2)
              | none => acc) = acc
        rw [h]

theorem resolvePipelineVars_all_unresolved (all : List MetricAgg) :
    ∀ (vars : List (String × String)) (acc : List (String × JValue)),
      (∀ v ∈ vars, goParseInt v.2 = none ∨ resolveSibling all v.2 = none) →
      vars.foldl (resolvePipelineVar all) acc = acc := by
  intro vars
  induction vars with
  | nil => intro acc _; rfl
  | cons v vars ih =>
      intro acc h
      show vars.foldl (resolvePipelineVar all) (resolvePipelineVar all acc v) = acc
      rw [resolvePipelineVar_unresolved all acc v (h v (List.mem_cons_self _ _))]
      exact ih acc fun w hw => h w (List.mem_cons_of_mem _ hw)

/-- C5: a single-reference pipeline metric whose `PipelineAggregate` does
not parse as an integer is skipped entirely — no node is emitted — and a
query with bucket aggregations always contributes a search request (never
an error response), so nothing is raised or recorded for the skipped
metric. -/
theorem c5_unparseable_pipeline_skipped (all rest : List MetricAgg)
    (m : MetricAgg) (hp : isPipelineAgg m.type = true)
    (hmulti : isPipelineAggWithMultipleBucketPaths m.type = false)
    (hparse : goParseInt m.pipelineAggregate = none) :
    buildMetricNodes all (m :: rest) = buildMetricNodes all rest ∧
    ∀ (q : Query) (f t : Int) (tf : String), q.bucketAggs ≠ [] →
      ∃ body, (processQuery q f t tf).1 = .request body := by
  constructor
  · have hc : ¬m.type = countType := count_not_pipeline hp
    have hmulti' : ¬isPipelineAggWithMultipleBucketPaths m.type = true := by
      rw [hmulti]
      exact Bool.false_ne_true
    simp [buildMetricNodes, buildMetricNodesAndPost, hc, hp, hmulti', hparse]
  · intro q f t tf hb
    have : q.bucketAggs.isEmpty = false := by
      cases h : q.bucketAggs
      · exact absurd h hb
      · rfl
    refine ⟨{ size := 0, sorts := [], docValueFields := [], highlight := false,
              rangeField := tf, rangeTo := t, rangeFrom := f,
              rangeFormat := dateFormatEpochMS, queryString := q.rawQuery,
              aggs := (buildAggsAndPost q.metrics f t tf q.bucketAggs).1 }, ?_⟩
    simp [processQuery, this]

/-- C3: a pipeline metric reference that parses as an integer and resolves
to a sibling metric is emitted with the reserved `_count` sentinel path
when the sibling is a count metric, and with the sibling's raw ID
otherwise — in the single-reference form (first conjunct) and in each step
of the multi-variable mapping (second conjunct). -/
theorem c3_count_sentinel_path (all rest : List MetricAgg)
    (m appliedAgg : MetricAgg) (k : Int)
    (hp : isPipelineAgg m.type = true)
    (hmulti : isPipelineAggWithMultipleBucketPaths m.type = false)
    (hparse : goParseInt m.pipelineAggregate = some k)
    (hres : resolveSibling all m.pipelineAggregate = some appliedAgg) :
    buildMetricNodes all (m :: rest) =
      AggNode.node m.id
        (.pipeline m.type
          (.jstr (if appliedAgg.type = countType then "_count"
                  else m.pipelineAggregate))
          m.generateSettingsForDSL) [] :: buildMetricNodes all rest ∧
    ∀ (acc : List (String × JValue)) (name ref : String)
      (applied' : MetricAgg) (k' : Int),
      goParseInt ref = some k' → resolveSibling all ref = some applied' →
      resolvePipelineVar all acc (name, ref) =
        assocSet acc name
          (.jstr (if applied'.type = countType then "_count" else ref)) := by
  constructor
  · have hc : ¬m.type = countType := count_not_pipeline hp
    have hmulti' : ¬isPipelineAggWithMultipleBucketPaths m.type = true := by
      rw [hmulti]
      exact Bool.false_ne_true
    simp only [buildMetricNodes, buildMetricNodesAndPost, if_neg hc,
      if_pos hp, if_neg hmulti', hparse, hres]
  · intro acc name ref applied' k' hparse' hres'
    unfold resolvePipelineVar
    simp only [hparse', hres']
    by_cases hcount : applied'.type = countType
    · simp [hcount]
    · simp [hcount]

/-- C1 (amended): for a multi-variable pipeline metric, unresolvable
references are dropped from the bucket-path mapping without error (a
variable list with no resolvable reference yields the empty mapping), but
the pipeline entry is skipped only when `PipelineVariables` itself is
empty — when it is non-empty, a pipeline node is emitted even if the
resolved mapping is empty. -/
theorem c1_amended_multi_pipeline (all rest : List MetricAgg) (m : MetricAgg)
    (hp : isPipelineAgg m.type = true)
    (hmulti : isPipelineAggWithMultipleBucketPaths m.type = true) :
    (m.pipelineVariables = [] →
       buildMetricNodes all (m :: rest) = buildMetricNodes all rest) ∧
    (m.pipelineVariables ≠ [] →
       buildMetricNodes all (m :: rest) =
         AggNode.node m.id
           (.pipeline m.type
             (.jobj (resolvePipelineVars all m.pipelineVariables))
             m.generateSettingsForDSL) [] :: buildMetricNodes all rest) ∧
    ∀ (vars : List (String × String)),
      (∀ v ∈ vars, goParseInt v.2 = none ∨ resolveSibling all v.2 = none) →
      resolvePipelineVars all vars = [] := by
  have hc : ¬m.type = countType := count_not_pipeline hp
  refine ⟨?_, ?_, ?_⟩
  · intro hv
    simp [buildMetricNodes, buildMetricNodesAndPost, hc, hp, hmulti, hv]
  · intro hv
    have hlen : 0 < m.pipelineVariables.length := by
      cases h : m.pipelineVariables
      · exact absurd h hv
      · simp [h]
    simp [buildMetricNodes, buildMetricNodesAndPost, hc, hp, hmulti, hlen]
  · intro vars h
    exact resolvePipelineVars_all_unresolved all vars [] h

/-- C1 counterexample: the metric's variables resolve to the empty
mapping, yet a pipeline node is still emitted (with an empty bucket-paths
object) — the claim that the whole pipeline entry is skipped when the
resolved mapping ends up empty is false on the code. -/
theorem c1_counterexample :
    resolvePipelineVars [c1CexMetric] c1CexMetric.pipelineVariables = [] ∧
    buildMetricNodes [c1CexMetric] [c1CexMetric] =
      [AggNode.node "2" (.pipeline "bucket_script" (.jobj []) (.jobj [])) []] :=
  ⟨rfl, rfl⟩

/-- C5 witness: a `moving_avg` metric whose reference `"x"` does not parse
is dropped, leaving no emitted node. -/
theorem c5_witness :
    buildMetricNodes
      [{ id := "3", type := "moving_avg", field := "", settings := .null,
         pipelineAggregate := "x", pipelineVariables := [] }]
      [{ id := "3", type := "moving_avg", field := "", settings := .null,
         pipelineAggregate := "x", pipelineVariables := [] }] = [] :=
  (c5_unparseable_pipeline_skipped _ []
    { id := "3", type := "moving_avg", field := "", settings := .null,
      pipelineAggregate := "x", pipelineVariables := [] }
    (by decide) (by decide) (by decide)).1

/-- C1 witness: the amended theorem applied at the counterexample metric —
with non-empty `PipelineVariables`, exactly one pipeline node is
emitted. -/
theorem c1_amended_witness :
    buildMetricNodes [c1CexMetric] [c1CexMetric] =
      AggNode.node c1CexMetric.id
        (.pipeline c1CexMetric.type
          (.jobj (resolvePipelineVars [c1CexMetric] c1CexMetric.pipelineVariables))
          c1CexMetric.generateSettingsForDSL) [] ::
        buildMetricNodes [c1CexMetric] [] :=
  (c1_amended_multi_pipeline [c1CexMetric] [] c1CexMetric (by decide)
    (by decide)).2.1 (by decide)

/-- C3 witness: a derivative referencing a count sibling is emitted with
the `_count` sentinel bucket path. -/
theorem c3_witness :
    buildMetricNodes [c3Count, c3Deriv] [c3Deriv] =
      AggNode.node c3Deriv.id
        (.pipeline c3Deriv.type
          (.jstr (if c3Count.type = countType then "_count"
                  else c3Deriv.pipelineAggregate))
          c3Deriv.generateSettingsForDSL) [] ::
        buildMetricNodes [c3Count, c3Deriv] [] :=
  (c3_count_sentinel_path [c3Count, c3Deriv] [] c3Deriv c3Count 1 (by decide)
    (by decide) (by decide) (by rfl)).1

theorem allNodesList_append (l1 l2 : List AggNode) :
    allNodesList (l1 ++ l2) = allNodesList l1 ++ allNodesList l2 := by
  induction l1 with
  | nil => simp [allNodesList]
  | cons x l1 ih =>
      cases x with
      | node i p c => simp [allNodesList, ih]

theorem metric_nodes_not_count (all : List MetricAgg) :
    ∀ (iter : List MetricAgg) (n : AggNode),
      n ∈ allNodesList (buildMetricNodes all iter) →
      ∀ (id fld : String) (st : JValue) (c : List AggNode),
        n ≠ AggNode.node id (.metric countType fld st) c := by
  intro iter
  induction iter with
  | nil =>
      intro n hn
      simp [buildMetricNodes, buildMetricNodesAndPost, allNodesList] at hn
  | cons m rest ih =>
      intro n hn id fld st c
      by_cases hc : m.type = countType
      · simp only [buildMetricNodes, buildMetricNodesAndPost, if_pos hc] at hn
        exact ih n hn id fld st c
      · by_cases hp : isPipelineAgg m.type = true
        · by_cases hmulti : isPipelineAggWithMultipleBucketPaths m.type = true
          · by_cases hv : 0 < m.pipelineVariables.length
            · simp only [buildMetricNodes, buildMetricNodesAndPost,
                if_neg hc, if_pos hp, if_pos hmulti, if_pos hv,
                allNodesList, List.nil_append] at hn
              rcases List.mem_cons.mp hn with rfl | hn'
              · intro h
                injection h with h1 h2 h3
                cases h2
              · exact ih n hn' id fld st c
            · simp only [buildMetricNodes, buildMetricNodesAndPost,
                if_neg hc, if_pos hp, if_pos hmulti, if_neg hv] at hn
              exact ih n hn id fld st c
          · cases hparse : goParseInt m.pipelineAggregate with
            | none =>
                simp only [buildMetricNodes, buildMetricNodesAndPost,
                  if_neg hc, if_pos hp, if_neg hmulti, hparse] at hn
                exact ih n hn id fld st c
            | some k =>
                cases hres : resolveSibling all m.pipelineAggregate with
                | none =>
                    simp only [buildMetricNodes, buildMetricNodesAndPost,
                      if_neg hc, if_pos hp, if_neg hmulti, hparse, hres] at hn
                    exact ih n hn id fld st c
                | some appliedAgg =>
                    simp only [buildMetricNodes, buildMetricNodesAndPost,
                      if_neg hc, if_pos hp, if_neg hmulti, hparse, hres,
                      allNodesList, List.nil_append] at hn
                    rcases List.mem_cons.mp hn with rfl | hn'
                    · intro h
                      injection h with h1 h2 h3
                      cases h2
                    · exact ih n hn' id fld st c
        · simp only [buildMetricNodes, buildMetricNodesAndPost,
            if_neg hc, if_neg hp, allNodesList, List.nil_append] at hn
          rcases List.mem_cons.mp hn with rfl | hn'
          · intro h
            injection h with h1 h2 h3
            injection h2 with ht hf hs
            exact hc ht
          · exact ih n hn' id fld st c

theorem termsExtra_not_count (ba : BucketAgg) (ms : List MetricAgg)
    (n : AggNode) (hn : n ∈ allNodesList (termsOrderAndExtra ba ms).2) :
    ∀ (id fld : String) (st : JValue) (c : List AggNode),
      n ≠ AggNode.node id (.metric countType fld st) c := by
  intro id fld st c
  unfold termsOrderAndExtra at hn
  cases ho : jString (jGet ba.settings "orderBy") with
  | none => rw [ho] at hn; simp [allNodesList] at hn
  | some orderBy =>
      rw [ho] at hn
      simp only [] at hn
      by_cases hlen : (leadingDigits orderBy).length > 0
      · rw [if_pos hlen] at hn
        cases hres : resolveSibling ms (leadingDigits orderBy) with
        | none => rw [hres] at hn; simp [allNodesList] at hn
        | some m =>
            rw [hres] at hn
            simp only [] at hn
            by_cases hcm : m.type = "count"
            · rw [if_pos hcm] at hn
              simp [allNodesList] at hn
            · rw [if_neg hcm] at hn
              simp only [allNodesList, List.append_nil,
                List.mem_singleton] at hn
              subst hn
              intro h
              injection h with h1 h2 h3
              injection h2 with ht hf hs
              exact hcm (ht.trans rfl)
      · rw [if_neg hlen] at hn
        simp [allNodesList] at hn

theorem buildAggs_not_count (all : List MetricAgg) (f t : Int) (tf : String) :
    ∀ (bas : List BucketAgg) (n : AggNode),
      n ∈ allNodesList (buildAggs all f t tf bas) →
      ∀ (id fld : String) (st : JValue) (c : List AggNode),
        n ≠ AggNode.node id (.metric countType fld st) c := by
  intro bas
  induction bas with
  | nil =>
      intro n hn
      exact metric_nodes_not_count all all n hn
  | cons ba rest ih =>
      intro n hn id fld st c
      by_cases h1 : ba.type = dateHistType
      · simp only [buildAggs, buildAggsAndPost, if_pos h1, allNodesList,
          List.append_nil] at hn
        rcases List.mem_cons.mp hn with rfl | hn'
        · intro h
          injection h with hi hp hc
          cases hp
        · exact ih n (by simpa [buildAggs, allNodesList] using hn') id fld st c
      · by_cases h2 : ba.type = histogramType
        · simp only [buildAggs, buildAggsAndPost, if_neg h1, if_pos h2,
            allNodesList, List.append_nil] at hn
          rcases List.mem_cons.mp hn with rfl | hn'
          · intro h
            injection h with hi hp hc
            cases hp
          · exact ih n (by simpa [buildAggs, allNodesList] using hn') id fld st c
        · by_cases h3 : ba.type = filtersType
          · by_cases hfs : (filtersOf (normalizeBucket ba).settings).length > 0
            · simp only [buildAggs, buildAggsAndPost, if_neg h1, if_neg h2,
                if_pos h3, if_pos hfs, allNodesList, List.append_nil] at hn
              rcases List.mem_cons.mp hn with rfl | hn'
              · intro h
                injection h with hi hp hc
                cases hp
              · exact ih n (by simpa [buildAggs, allNodesList] using hn') id fld st c
            · simp only [buildAggs, buildAggsAndPost, if_neg h1, if_neg h2,
                if_pos h3, if_neg hfs] at hn
              exact ih n hn id fld st c
          · by_cases h4 : ba.type = termsType
            · simp only [buildAggs, buildAggsAndPost, if_neg h1, if_neg h2,
                if_neg h3, if_pos h4, allNodesList, List.append_nil,
                allNodesList_append] at hn
              rcases List.mem_cons.mp hn with rfl | hn'
              · intro h
                injection h with hi hp hc
                cases hp
              · rcases List.mem_append.mp hn' with hx | hr
                · exact termsExtra_not_count (normalizeBucket ba) all n hx
                    id fld st c
                · exact ih n (by simpa [buildAggs, allNodesList] using hr) id fld st c
            · by_cases h5 : ba.type = geohashGridType
              · simp only [buildAggs, buildAggsAndPost, if_neg h1, if_neg h2,
                  if_neg h3, if_neg h4, if_pos h5, allNodesList,
                  List.append_nil] at hn
                rcases List.mem_cons.mp hn with rfl | hn'
                · intro h
                  injection h with hi hp hc
                  cases hp
                · exact ih n (by simpa [buildAggs, allNodesList] using hn') id fld st c
              · simp only [buildAggs, buildAggsAndPost, if_neg h1, if_neg h2,
                  if_neg h3, if_neg h4, if_neg h5] at hn
                exact ih n hn id fld st c

/-- C4: a `count`-typed metric never produces an explicit metric
sub-aggregation node anywhere in the built aggregation tree — the
metric-attachment loop skips it entirely, and the terms order-by
attachment also refuses count metrics. -/
theorem c4_count_never_emitted (metrics : List MetricAgg)
    (bas : List BucketAgg) (f t : Int) (tf : String) (n : AggNode)
    (hn : n ∈ allNodesList (buildAggs metrics f t tf bas))
    (id fld : String) (st : JValue) (c : List AggNode) :
    n ≠ AggNode.node id (.metric countType fld st) c :=
  buildAggs_not_count metrics f t tf bas n hn id fld st c

/-- C4 witness: the emitted avg node of a one-metric query is not a
count metric node. -/
theorem c4_witness :
    AggNode.node "7" (.metric "avg" "f" (.jobj [])) [] ≠
      AggNode.node "7" (.metric countType "f" (.jobj [])) [] :=
  c4_count_never_emitted [c4AvgMetric] [] 0 0 "t"
    (AggNode.node "7" (.metric "avg" "f" (.jobj [])) [])
    (by
      show AggNode.node "7" (.metric "avg" "f" (.jobj [])) [] ∈
        allNodesList [AggNode.node "7" (.metric "avg" "f" (.jobj [])) []]
      simp [allNodesList])
    "7" "f" (.jobj []) []

theorem buildMetricNodes_nonbucket (all : List MetricAgg) :
    ∀ (iter : List MetricAgg) (n : AggNode),
      n ∈ buildMetricNodes all iter → isBucketNode n = false := by
  intro iter
  induction iter with
  | nil =>
      intro n hn
      simp [buildMetricNodes, buildMetricNodesAndPost] at hn
  | cons m rest ih =>
      intro n hn
      by_cases hc : m.type = countType
      · simp only [buildMetricNodes, buildMetricNodesAndPost, if_pos hc] at hn
        exact ih n hn
      · by_cases hp : isPipelineAgg m.type = true
        · by_cases hmulti : isPipelineAggWithMultipleBucketPaths m.type = true
          · by_cases hv : 0 < m.pipelineVariables.length
            · simp only [buildMetricNodes, buildMetricNodesAndPost,
                if_neg hc, if_pos hp, if_pos hmulti, if_pos hv] at hn
              rcases List.mem_cons.mp hn with rfl | hn'
              · rfl
              · exact ih n hn'
            · simp only [buildMetricNodes, buildMetricNodesAndPost,
                if_neg hc, if_pos hp, if_pos hmulti, if_neg hv] at hn
              exact ih n hn
          · cases hparse : goParseInt m.pipelineAggregate with
            | none =>
                simp only [buildMetricNodes, buildMetricNodesAndPost,
                  if_neg hc, if_pos hp, if_neg hmulti, hparse] at hn
                exact ih n hn
            | some k =>
                cases hres : resolveSibling all m.pipelineAggregate with
                | none =>
                    simp only [buildMetricNodes, buildMetricNodesAndPost,
                      if_neg hc, if_pos hp, if_neg hmulti, hparse, hres] at hn
                    exact ih n hn
                | some appliedAgg =>
                    simp only [buildMetricNodes, buildMetricNodesAndPost,
                      if_neg hc, if_pos hp, if_neg hmulti, hparse, hres] at hn
                    rcases List.mem_cons.mp hn with rfl | hn'
                    · rfl
                    · exact ih n hn'
        · simp only [buildMetricNodes, buildMetricNodesAndPost,
            if_neg hc, if_neg hp] at hn
          rcases List.mem_cons.mp hn with rfl | hn'
          · rfl
          · exact ih n hn'

theorem bucketChainOf_nonbucket : ∀ (l : List AggNode),
    (∀ n ∈ l, isBucketNode n = false) → bucketChainOf l = [] := by
  intro l
  induction l with
  | nil => intro _; simp [bucketChainOf]
  | cons x rest ih =>
      intro h
      cases x with
      | node i p c =>
          have hx : isBucketPayload p = false := by
            simpa [isBucketNode] using h _ (List.mem_cons_self _ _)
          simp only [bucketChainOf, if_neg (by simp [hx] : ¬isBucketPayload p = true)]
          exact ih fun n hn => h n (List.mem_cons_of_mem _ hn)

theorem bucketChainOf_append_nonbucket : ∀ (pre l : List AggNode),
    (∀ n ∈ pre, isBucketNode n = false) →
    bucketChainOf (pre ++ l) = bucketChainOf l := by
  intro pre
  induction pre with
  | nil => intro l _; simp
  | cons x pre ih =>
      intro l h
      cases x with
      | node i p c =>
          have hx : isBucketPayload p = false := by
            simpa [isBucketNode] using h _ (List.mem_cons_self _ _)
          rw [List.cons_append]
          simp only [bucketChainOf, if_neg (by simp [hx] : ¬isBucketPayload p = true)]
          exact ih l fun n hn => h n (List.mem_cons_of_mem _ hn)

theorem termsExtra_nonbucket (ba : BucketAgg) (ms : List MetricAgg) :
    ∀ n ∈ (termsOrderAndExtra ba ms).2, isBucketNode n = false := by
  intro n hn
  unfold termsOrderAndExtra at hn
  cases ho : jString (jGet ba.settings "orderBy") with
  | none => rw [ho] at hn; simp at hn
  | some orderBy =>
      rw [ho] at hn
      simp only [] at hn
      by_cases hlen : (leadingDigits orderBy).length > 0
      · rw [if_pos hlen] at hn
        cases hres : resolveSibling ms (leadingDigits orderBy) with
        | none => rw [hres] at hn; simp at hn
        | some m =>
            rw [hres] at hn
            simp only [] at hn
            by_cases hcm : m.type = "count"
            · rw [if_pos hcm] at hn
              simp at hn
            · rw [if_neg hcm] at hn
              simp only [List.mem_singleton] at hn
              subst hn
              rfl
      · rw [if_neg hlen] at hn
        simp at hn

theorem jGet_normalizeBucket (ba : BucketAgg) (k : String)
    (hk : k ≠ "min_doc_count") :
    jGet (normalizeBucket ba).settings k = jGet ba.settings k := by
  show jGet (mustMapJ (setIntPath ba.settings ["min_doc_count"])) k =
    jGet ba.settings k
  rw [setIntPath_eq_conv]
  cases hobj : ba.settings.isObj
  · rw [setConvPath_nonobj intConv ba.settings "min_doc_count" [] hobj,
      mustMapJ_nonobj ba.settings hobj, jGet_nonobj ba.settings k hobj]
    rfl
  · rw [mustMapJ_obj _ (isObj_setConvPath intConv ba.settings _ _ hobj)]
    have hdiv : pathDiverge [k] ["min_doc_count"] = true := by
      simp [pathDiverge, hk]
    have h := jGetPath_setConvPath_diverge intConv hdiv ba.settings
    simpa [jGetPath] using h

theorem filtersOf_normalizeBucket (ba : BucketAgg) :
    filtersOf (normalizeBucket ba).settings = filtersOf ba.settings := by
  unfold filtersOf
  rw [jGet_normalizeBucket ba "filters" (by decide)]

theorem termsSize_normalizeBucket (ba : BucketAgg) :
    termsSize (normalizeBucket ba).settings = termsSize ba.settings := by
  unfold termsSize
  rw [jGet_normalizeBucket ba "size" (by decide)]

/-- C2 (amended): for every bucket-aggregation list whose entries all emit
a node (recognised type; a non-empty filter set for filters
aggregations), the built tree's chain of nested bucket nodes lists
exactly the bucket aggregations' IDs and types in declared order — the
first is the root, each subsequent one is nested inside the previous, and
the nesting depth equals the list length.  (Unrecognised types and empty
filters aggregations emit no node, which is what the counterexample
exhibits.) -/
theorem c2_amended_nesting (metrics : List MetricAgg) (f t : Int)
    (tf : String) :
    ∀ (bas : List BucketAgg), (∀ ba ∈ bas, emitsNode ba = true) →
      bucketChainOf (buildAggs metrics f t tf bas) =
        bas.map (fun ba => (ba.id, ba.type)) := by
  intro bas
  induction bas with
  | nil =>
      intro _
      simpa [buildAggs, buildAggsAndPost] using
        bucketChainOf_nonbucket (buildMetricNodes metrics metrics)
          (buildMetricNodes_nonbucket metrics metrics)
  | cons ba rest ih =>
      intro h
      have hba : emitsNode ba = true := h ba (List.mem_cons_self _ _)
      have hrest : ∀ b ∈ rest, emitsNode b = true :=
        fun b hb => h b (List.mem_cons_of_mem _ hb)
      have htail : bucketChainOf (buildAggsAndPost metrics f t tf rest).1 =
          List.map (fun ba => (ba.id, ba.type)) rest := ih hrest
      by_cases h1 : ba.type = dateHistType
      · simp only [buildAggs, buildAggsAndPost, if_pos h1]
        simp [bucketChainOf, dateHistPayload, isBucketPayload,
          AggPayload.typeName, normalizeBucket, h1, htail]
      · by_cases h2 : ba.type = histogramType
        · simp only [buildAggs, buildAggsAndPost, if_neg h1, if_pos h2]
          simp [bucketChainOf, histogramPayload, isBucketPayload,
            AggPayload.typeName, normalizeBucket, h2, htail]
        · by_cases h3 : ba.type = filtersType
          · have hfs0 : (filtersOf ba.settings).length > 0 := by
              have hh := hba
              unfold emitsNode at hh
              rw [if_neg h1, if_neg h2, if_pos h3] at hh
              exact of_decide_eq_true hh
            have hfs : (filtersOf (normalizeBucket ba).settings).length > 0 := by
              rw [filtersOf_normalizeBucket]
              exact hfs0
            simp only [buildAggs, buildAggsAndPost, if_neg h1, if_neg h2,
              if_pos h3, if_pos hfs]
            simp [bucketChainOf, isBucketPayload, AggPayload.typeName,
              normalizeBucket, h3, htail]
          · by_cases h4 : ba.type = termsType
            · simp only [buildAggs, buildAggsAndPost, if_neg h1, if_neg h2,
                if_neg h3, if_pos h4]
              simp only [bucketChainOf, termsPayload, isBucketPayload,
                if_pos, List.map_cons]
              rw [bucketChainOf_append_nonbucket _ _
                (termsExtra_nonbucket _ metrics)]
              simp [AggPayload.typeName, normalizeBucket, h4, htail]
            · by_cases h5 : ba.type = geohashGridType
              · simp only [buildAggs, buildAggsAndPost, if_neg h1, if_neg h2,
                  if_neg h3, if_neg h4, if_pos h5]
                simp [bucketChainOf, isBucketPayload, AggPayload.typeName,
                  normalizeBucket, h5, htail]
              · exfalso
                have hh := hba
                unfold emitsNode at hh
                rw [if_neg h1, if_neg h2, if_neg h3, if_neg h4, if_neg h5] at hh
                cases hh

/-- C2 counterexample: a one-element bucket list consisting of a filters
aggregation with an empty filter set produces a tree whose bucket-nesting
chain is empty — depth 0, not 1 — so the claim that the nesting depth
always equals the list length is false on the code. -/
theorem c2_counterexample :
    bucketChainOf (buildAggs [] 0 0 "t" [c2CexBucket]) = [] ∧
    [c2CexBucket].length = 1 := by
  constructor
  · have h : buildAggs [] 0 0 "t" [c2CexBucket] = [] := rfl
    rw [h]
    simp [bucketChainOf]
  · rfl

/-- C2 witness: the amended theorem applied to a singleton date-histogram
list — the chain is exactly that bucket, depth 1. -/
theorem c2_amended_witness :
    bucketChainOf (buildAggs [] 0 0 "t"
        [{ id := "9", type := "date_histogram", field := "", settings := .null }]) =
      [("9", "date_histogram")] :=
  c2_amended_nesting [] 0 0 "t"
    [{ id := "9", type := "date_histogram", field := "", settings := .null }]
    (by
      intro ba hba
      rw [List.mem_singleton.mp hba]
      rfl)

theorem headTermsSize_buildAggs (ba : BucketAgg) (metrics : List MetricAgg)
    (f t : Int) (tf : String) (hterms : ba.type = termsType) :
    headTermsSize (buildAggs metrics f t tf [ba]) =
      some (termsSize ba.settings) := by
  have h1 : ¬ba.type = dateHistType := by rw [hterms]; decide
  have h2 : ¬ba.type = histogramType := by rw [hterms]; decide
  have h3 : ¬ba.type = filtersType := by rw [hterms]; decide
  simp only [buildAggs, buildAggsAndPost, if_neg h1, if_neg h2, if_neg h3,
    if_pos hterms]
  simp [headTermsSize, termsPayload, termsSize_normalizeBucket]

/-- C6: the size emitted for a terms aggregation is 500 when the `size`
setting is absent, a non-numeric string, the integer zero, or a string
parsing to zero; otherwise the declared integer or numeric-string value
is used. -/
theorem c6_terms_size_default (ba : BucketAgg) (metrics : List MetricAgg)
    (f t : Int) (tf : String) (hterms : ba.type = termsType) :
    (jGet ba.settings "size" = .null →
       headTermsSize (buildAggs metrics f t tf [ba]) = some 500) ∧
    (∀ s, jGet ba.settings "size" = .jstr s → goParseInt s = none →
       headTermsSize (buildAggs metrics f t tf [ba]) = some 500) ∧
    (jGet ba.settings "size" = .jint 0 →
       headTermsSize (buildAggs metrics f t tf [ba]) = some 500) ∧
    (∀ s, jGet ba.settings "size" = .jstr s → goParseInt s = some 0 →
       headTermsSize (buildAggs metrics f t tf [ba]) = some 500) ∧
    (∀ n, jGet ba.settings "size" = .jint n → n ≠ 0 →
       headTermsSize (buildAggs metrics f t tf [ba]) = some n) ∧
    (∀ s n, jGet ba.settings "size" = .jstr s → goParseInt s = some n →
       n ≠ 0 → headTermsSize (buildAggs metrics f t tf [ba]) = some n) := by
  rw [headTermsSize_buildAggs ba metrics f t tf hterms]
  refine ⟨?_, ?_, ?_, ?_, ?_, ?_⟩
  · intro h
    simp [termsSize, h, jInt, jString]
  · intro s h hp
    simp [termsSize, h, hp, jInt, jString]
  · intro h
    simp [termsSize, h, jInt]
  · intro s h hp
    simp [termsSize, h, hp, jInt, jString]
  · intro n h hn
    simp [termsSize, h, jInt, hn]
  · intro s n h hp hn
    simp [termsSize, h, hp, jInt, jString, hn]

/-- C6 witness: absent size, unparseable string size and literal-zero
size all emit 500; an explicit 25 is used as declared. -/
theorem c6_witness :
    headTermsSize (buildAggs [] 0 0 "t"
        [{ id := "2", type := "terms", field := "f", settings := .null }]) =
      some 500 ∧
    headTermsSize (buildAggs [] 0 0 "t"
        [{ id := "2", type := "terms", field := "f",
           settings := .jobj [("size", .jint 25)] }]) = some 25 :=
  ⟨(c6_terms_size_default
      { id := "2", type := "terms", field := "f", settings := .null }
      [] 0 0 "t" rfl).1 rfl,
   (c6_terms_size_default
      { id := "2", type := "terms", field := "f",
        settings := .jobj [("size", .jint 25)] }
      [] 0 0 "t" rfl).2.2.2.2.1 25 rfl (by decide)⟩

/-- C7: settings normalization (the generateSettingsForDSL pass for metric
and bucket aggregations, including the string-to-float coercion of
moving-average and serial-diff fields and the legacy script.inline
promotion) is idempotent — for every metric and bucket aggregation,
re-normalising already-normalised settings yields the same result. -/
theorem c7_normalization_idempotent (m : MetricAgg) (b : BucketAgg) :
    MetricAgg.generateSettingsForDSL { m with settings := m.generateSettingsForDSL } =
      m.generateSettingsForDSL ∧
    BucketAgg.generateSettingsForDSL { b with settings := b.generateSettingsForDSL } =
      b.generateSettingsForDSL :=
  ⟨metric_settings_idem m, bucket_settings_idem b⟩

/-- C8: a query with no bucket aggregations whose first metric is not a
raw-data / raw-document / logs metric (or that has no metrics at all)
contributes a per-panel error response keyed by its reference ID and
stating "invalid query, missing metrics and aggregations"; the batch
continues — the surrounding queries are processed exactly as they would
be on their own. -/
theorem c8_invalid_query_error (q : Query) (f t : Int) (tf : String)
    (hb : q.bucketAggs = [])
    (hm : ∀ m, q.metrics.head? = some m →
      ¬(m.type = "raw_data" ∨ m.type = "raw_document" ∨ m.type = "logs")) :
    (processQuery q f t tf).1 =
      .errorResponse q.refId "invalid query, missing metrics and aggregations" ∧
    ∀ (qs1 qs2 : List Query),
      processAll (qs1 ++ q :: qs2) f t tf =
        ((processAll qs1 f t tf).1 ++
           (q.refId, "invalid query, missing metrics and aggregations") ::
             (processAll qs2 f t tf).1,
         (processAll qs1 f t tf).2 ++ (processAll qs2 f t tf).2) := by
  have hbe : q.bucketAggs.isEmpty = true := by rw [hb]; rfl
  have hout : (processQuery q f t tf).1 =
      .errorResponse q.refId "invalid query, missing metrics and aggregations" := by
    cases hqm : q.metrics with
    | nil => simp [processQuery, hbe, hqm]
    | cons m rest =>
        have hmne := hm m (by rw [hqm]; rfl)
        simp [processQuery, hbe, hqm, hmne]
  refine ⟨hout, ?_⟩
  intro qs1 qs2
  induction qs1 with
  | nil =>
      simp only [List.nil_append, processAll, hout]
  | cons q1 qs1 ih =>
      simp only [List.cons_append, processAll]
      cases h1 : (processQuery q1 f t tf).1 <;> simp [h1, ih]

/-- C8 witness: a query with neither metrics nor bucket aggregations
yields the per-panel error response under its reference ID. -/
theorem c8_witness :
    (processQuery c8BadQuery 0 0 "t").1 =
      .errorResponse "B" "invalid query, missing metrics and aggregations" :=
  (c8_invalid_query_error c8BadQuery 0 0 "t" rfl (fun m hm => by cases hm)).1

theorem buildMetricNodesAndPost_post (all : List MetricAgg) :
    ∀ (iter : List MetricAgg), (buildMetricNodesAndPost all iter).2 =
      iter.map (fun m => if metricEmitted all m then metricPost m else m) := by
  intro iter
  induction iter with
  | nil => simp [buildMetricNodesAndPost]
  | cons m rest ih =>
      by_cases hc : m.type = countType
      · simp only [buildMetricNodesAndPost, if_pos hc, List.map_cons]
        rw [ih]
        simp [metricEmitted, hc]
      · by_cases hp : isPipelineAgg m.type = true
        · by_cases hmulti : isPipelineAggWithMultipleBucketPaths m.type = true
          · by_cases hv : 0 < m.pipelineVariables.length
            · simp only [buildMetricNodesAndPost, if_neg hc, if_pos hp,
                if_pos hmulti, if_pos hv, List.map_cons]
              rw [ih]
              simp [metricEmitted, hc, hp, hmulti, hv]
            · simp only [buildMetricNodesAndPost, if_neg hc, if_pos hp,
                if_pos hmulti, if_neg hv, List.map_cons]
              rw [ih]
              simp [metricEmitted, hc, hp, hmulti, hv]
          · cases hparse : goParseInt m.pipelineAggregate with
            | none =>
                simp only [buildMetricNodesAndPost, if_neg hc, if_pos hp,
                  if_neg hmulti, hparse, List.map_cons]
                rw [ih]
                simp [metricEmitted, hc, hp, hmulti, hparse]
            | some k =>
                cases hres : resolveSibling all m.pipelineAggregate with
                | none =>
                    simp only [buildMetricNodesAndPost, if_neg hc, if_pos hp,
                      if_neg hmulti, hparse, hres, List.map_cons]
                    rw [ih]
                    simp [metricEmitted, hc, hp, hmulti, hparse, hres]
                | some appliedAgg =>
                    simp only [buildMetricNodesAndPost, if_neg hc, if_pos hp,
                      if_neg hmulti, hparse, hres, List.map_cons]
                    rw [ih]
                    simp [metricEmitted, hc, hp, hmulti, hparse, hres]
        · simp only [buildMetricNodesAndPost, if_neg hc, if_neg hp,
            List.map_cons]
          rw [ih]
          simp [metricEmitted, hc, hp]

theorem buildAggsAndPost_buckets (all : List MetricAgg) (f t : Int)
    (tf : String) : ∀ (bas : List BucketAgg),
    (buildAggsAndPost all f t tf bas).2.1 = bas.map normalizeBucket := by
  intro bas
  induction bas with
  | nil => simp [buildAggsAndPost]
  | cons ba rest ih =>
      simp only [buildAggsAndPost, List.map_cons]
      simp [ih]

theorem buildAggsAndPost_metrics (all : List MetricAgg) (f t : Int)
    (tf : String) : ∀ (bas : List BucketAgg),
    (buildAggsAndPost all f t tf bas).2.2 =
      (buildMetricNodesAndPost all all).2 := by
  intro bas
  induction bas with
  | nil => simp [buildAggsAndPost]
  | cons ba rest ih =>
      simp only [buildAggsAndPost]
      simp [ih]

theorem processQuery_zero_nonlogs (q : Query) (f t : Int) (tf : String)
    (hbe : q.bucketAggs.isEmpty = true) (m : MetricAgg)
    (rest : List MetricAgg) (hqm : q.metrics = m :: rest)
    (hl : ¬m.type = "logs") : (processQuery q f t tf).2 = q := by
  by_cases hr1 : m.type = "raw_data"
  · have hv : m.type = "raw_data" ∨ m.type = "raw_document" ∨
        m.type = "logs" := Or.inl hr1
    simp [processQuery, hbe, hqm, hv, hl, hr1]
  · by_cases hr2 : m.type = "raw_document"
    · have hv : m.type = "raw_data" ∨ m.type = "raw_document" ∨
          m.type = "logs" := Or.inr (Or.inl hr2)
      simp [processQuery, hbe, hqm, hv, hl, hr2]
    · have hv : ¬(m.type = "raw_data" ∨ m.type = "raw_document" ∨
          m.type = "logs") := by
        simp [hr1, hr2, hl]
      simp [processQuery, hbe, hqm, hv]

/-- C9 (amended): building a query's search request leaves the reference
ID, raw query, interval and max-data-points untouched; for a query with
bucket aggregations, the only mutation is settings normalisation — every
BucketAgg's settings are replaced by their normalised form and exactly
the emitted MetricAggs' settings by theirs, all other fields unchanged;
for a zero-bucket non-logs query the query is entirely unchanged; but a
zero-bucket logs query is additionally mutated beyond settings
normalisation: one synthesized date-histogram BucketAgg is appended (the
part the original claim missed). -/
theorem c9_amended_frame (q : Query) (f t : Int) (tf : String) :
    ((processQuery q f t tf).2.refId = q.refId ∧
     (processQuery q f t tf).2.rawQuery = q.rawQuery ∧
     (processQuery q f t tf).2.interval = q.interval ∧
     (processQuery q f t tf).2.maxDataPoints = q.maxDataPoints) ∧
    (∀ m : MetricAgg, (metricPost m).id = m.id ∧ (metricPost m).type = m.type ∧
       (metricPost m).field = m.field ∧
       (metricPost m).pipelineAggregate = m.pipelineAggregate ∧
       (metricPost m).pipelineVariables = m.pipelineVariables ∧
       (metricPost m).settings = m.mutateSettingsForDSL) ∧
    (∀ b : BucketAgg, (normalizeBucket b).id = b.id ∧
       (normalizeBucket b).type = b.type ∧ (normalizeBucket b).field = b.field ∧
       (normalizeBucket b).settings = b.generateSettingsForDSL) ∧
    (q.bucketAggs ≠ [] →
       (processQuery q f t tf).2.bucketAggs = q.bucketAggs.map normalizeBucket ∧
       (processQuery q f t tf).2.metrics =
         q.metrics.map
           (fun m => if metricEmitted q.metrics m then metricPost m else m)) ∧
    (q.bucketAggs = [] → isZeroBucketLogs q = false →
       (processQuery q f t tf).2 = q) ∧
    (q.bucketAggs = [] → isZeroBucketLogs q = true →
       (processQuery q f t tf).2.bucketAggs =
         [normalizeBucket (logsSynthBucket tf)] ∧
       (processQuery q f t tf).2.metrics = q.metrics) := by
  refine ⟨?_, fun m => ⟨rfl, rfl, rfl, rfl, rfl, rfl⟩,
    fun b => ⟨rfl, rfl, rfl, rfl⟩, ?_, ?_, ?_⟩
  · by_cases hbe : q.bucketAggs.isEmpty = true
    · cases hqm : q.metrics with
      | nil => simp [processQuery, hbe, hqm]
      | cons m rest =>
          by_cases hl : m.type = "logs"
          · have hv : m.type = "raw_data" ∨ m.type = "raw_document" ∨
                m.type = "logs" := Or.inr (Or.inr hl)
            simp [processQuery, hbe, hqm, hv, hl]
          · rw [processQuery_zero_nonlogs q f t tf hbe m rest hqm hl]
            exact ⟨rfl, rfl, rfl, rfl⟩
    · simp only [Bool.not_eq_true] at hbe
      simp [processQuery, hbe]
  · intro hb
    have hbe : q.bucketAggs.isEmpty = false := by
      cases h : q.bucketAggs
      · exact absurd h hb
      · rfl
    constructor
    · simp [processQuery, hbe, buildAggsAndPost_buckets]
    · simp [processQuery, hbe, buildAggsAndPost_metrics,
        buildMetricNodesAndPost_post]
  · intro hb hlogs
    have hbe : q.bucketAggs.isEmpty = true := by rw [hb]; rfl
    cases hqm : q.metrics with
    | nil => simp [processQuery, hbe, hqm]
    | cons m rest =>
        have hl : ¬m.type = "logs" := by
          intro h
          rw [isZeroBucketLogs, hbe, hqm] at hlogs
          simp [h] at hlogs
        exact processQuery_zero_nonlogs q f t tf hbe m rest hqm hl
  · intro hb hlogs
    have hbe : q.bucketAggs.isEmpty = true := by rw [hb]; rfl
    cases hqm : q.metrics with
    | nil =>
        rw [isZeroBucketLogs, hqm] at hlogs
        simp at hlogs
    | cons m rest =>
        have hl : m.type = "logs" := by
          rw [isZeroBucketLogs, hbe, hqm] at hlogs
          simpa using hlogs
        have hv : m.type = "raw_data" ∨ m.type = "raw_document" ∨
            m.type = "logs" := Or.inr (Or.inr hl)
        constructor
        · simp [processQuery, hbe, hqm, hv, hl]
        · simp [processQuery, hbe, hqm, hv, hl]

/-- C9 counterexample: processing a zero-bucket logs query grows its
BucketAgg list from zero to one entry — a mutation beyond replacing
settings with their normalised form — so the claim that the Query's
fields (its BucketAgg list included) are otherwise unchanged is false on
the code. -/
theorem c9_counterexample :
    (processQuery c9LogsQuery 0 0 "@timestamp").2.bucketAggs.length = 1 ∧
    c9LogsQuery.bucketAggs.length = 0 :=
  ⟨rfl, rfl⟩

/-- C9 witness: the amended frame theorem applied to a one-bucket query —
the post-state bucket list is the normalised bucket list. -/
theorem c9_amended_witness :
    (processQuery c9WitnessQuery 0 0 "t").2.bucketAggs =
      c9WitnessQuery.bucketAggs.map normalizeBucket :=
  ((c9_amended_frame c9WitnessQuery 0 0 "t").2.2.2.1 (by simp [c9WitnessQuery])).1

/-- C10: the public execute operation unconditionally reads the first
element of the data-query list for the shared time range, so it panics
with an out-of-bounds index exactly on the empty list — parsing an empty
list succeeds, so nothing guards the access — and never panics on a
non-empty list. -/
theorem c10_execute_empty_panics (tf : String) :
    execute [] tf = .panicked ∧
    ∀ dqs : List DataQuery, dqs ≠ [] → execute dqs tf ≠ .panicked := by
  constructor
  · rfl
  · intro dqs hne
    cases dqs with
    | nil => exact absurd rfl hne
    | cons dq rest =>
        cases hp : parseQuery (dq :: rest) with
        | error e =>
            simp only [execute, hp]
            exact fun h => ExecResult.noConfusion h
        | ok queries =>
            simp only [execute, hp, List.head?]
            exact fun h => ExecResult.noConfusion h

/-- C10 witness: a one-element data-query list does not panic. -/
theorem c10_witness : execute [c10DataQuery] "t" ≠ .panicked :=
  (c10_execute_empty_panics "t").2 [c10DataQuery] (by simp)

end ESQuery
